import Mathlib

/-!
Verification of the gesture-driven force-field particle engine:
a shallow embedding of the GestureDetector (debounced gesture classifier),
the Physics force helpers, the ParticleSystem buffer operations, and the
AtomMode per-particle force law, with theorems checking the stated
behavioural properties.  Floating-point arithmetic of the source is
modelled over the real numbers; calls to the random generator are
modelled by explicit vector parameters carrying the drawn values.
-/

open Classical

namespace QuantLab

/-- A 3D vector with real components, standing for `THREE.Vector3`
and for the plain `{x, y, z}` landmark points. -/
@[ext]
structure Vec3 where
  x : ℝ
  y : ℝ
  z : ℝ

noncomputable instance : Add Vec3 := ⟨fun a b => ⟨a.x + b.x, a.y + b.y, a.z + b.z⟩⟩

noncomputable instance : Sub Vec3 := ⟨fun a b => ⟨a.x - b.x, a.y - b.y, a.z - b.z⟩⟩

noncomputable instance : Neg Vec3 := ⟨fun a => ⟨-a.x, -a.y, -a.z⟩⟩

noncomputable instance : SMul ℝ Vec3 := ⟨fun c a => ⟨c * a.x, c * a.y, c * a.z⟩⟩

instance : Zero Vec3 := ⟨⟨0, 0, 0⟩⟩

@[simp] theorem Vec3.add_def (a b : Vec3) : a + b = ⟨a.x + b.x, a.y + b.y, a.z + b.z⟩ := rfl

@[simp] theorem Vec3.sub_def (a b : Vec3) : a - b = ⟨a.x - b.x, a.y - b.y, a.z - b.z⟩ := rfl

@[simp] theorem Vec3.neg_def (a : Vec3) : -a = ⟨-a.x, -a.y, -a.z⟩ := rfl

@[simp] theorem Vec3.smul_def (c : ℝ) (a : Vec3) : c • a = ⟨c * a.x, c * a.y, c * a.z⟩ := rfl

@[simp] theorem Vec3.zero_def : (0 : Vec3) = ⟨0, 0, 0⟩ := rfl

/-- Embeds `THREE.Vector3.length`: Euclidean norm. -/
noncomputable def Vec3.length (v : Vec3) : ℝ :=
  Real.sqrt (v.x ^ 2 + v.y ^ 2 + v.z ^ 2)

/-- Embeds `THREE.Vector3.normalize`: divides by `length() || 1`, so the zero
vector is left unchanged. -/
noncomputable def Vec3.normalize (v : Vec3) : Vec3 :=
  if v.length = 0 then v else (1 / v.length) • v

theorem Vec3.length_nonneg (v : Vec3) : 0 ≤ v.length := Real.sqrt_nonneg _

theorem Vec3.length_smul (c : ℝ) (v : Vec3) : (c • v).length = |c| * v.length := by
  simp only [Vec3.length, Vec3.smul_def]
  rw [show (c * v.x) ^ 2 + (c * v.y) ^ 2 + (c * v.z) ^ 2
      = c ^ 2 * (v.x ^ 2 + v.y ^ 2 + v.z ^ 2) by ring]
  rw [Real.sqrt_mul (sq_nonneg c), Real.sqrt_sq_eq_abs]

theorem Vec3.length_neg (v : Vec3) : (-v).length = v.length := by
  simp only [Vec3.length, Vec3.neg_def]
  ring_nf

theorem Vec3.length_eq_zero_iff (v : Vec3) : v.length = 0 ↔ v = 0 := by
  constructor
  · intro h
    have hnn : 0 ≤ v.x ^ 2 + v.y ^ 2 + v.z ^ 2 := by positivity
    have h0 : v.x ^ 2 + v.y ^ 2 + v.z ^ 2 = 0 := by
      have := (Real.sqrt_eq_zero hnn).mp h
      exact this
    have hx : v.x = 0 := by nlinarith [sq_nonneg v.x, sq_nonneg v.y, sq_nonneg v.z]
    have hy : v.y = 0 := by nlinarith [sq_nonneg v.x, sq_nonneg v.y, sq_nonneg v.z]
    have hz : v.z = 0 := by nlinarith [sq_nonneg v.x, sq_nonneg v.y, sq_nonneg v.z]
    ext <;> simp [hx, hy, hz]
  · intro h
    subst h
    simp [Vec3.length]

theorem Vec3.length_normalize (v : Vec3) (h : v.length ≠ 0) :
    v.normalize.length = 1 := by
  rw [Vec3.normalize, if_neg h, Vec3.length_smul]
  have hpos : 0 < v.length := lt_of_le_of_ne v.length_nonneg (Ne.symm h)
  rw [abs_of_pos (by positivity)]
  field_simp

theorem Vec3.normalize_of_ne_zero (v : Vec3) (h : v.length ≠ 0) :
    v.normalize = (1 / v.length) • v := by
  rw [Vec3.normalize, if_neg h]

/-- Helper: evaluate a concrete square root. -/
theorem sqrt_val {x a : ℝ} (ha : 0 ≤ a) (h : a ^ 2 = x) : Real.sqrt x = a := by
  rw [← h, Real.sqrt_sq ha]

/-! ### Physics helpers (`Physics` static class) -/

namespace Physics

/-- Embeds `Physics.attractionForce`: inverse-square pull toward `target`,
zero vector within distance `0.1`. -/
noncomputable def attractionForce (position target : Vec3) (strength : ℝ) : Vec3 :=
  let direction := target - position
  let distance := direction.length
  if distance < 0.1 then 0
  else (strength / (distance * distance + 0.1)) • direction.normalize

/-- Embeds `Physics.repulsionForce`: inverse-distance push away from `target`;
within distance `0.1` a random-direction impulse, whose three random
draws are the components of `rnd`. -/
noncomputable def repulsionForce (position target : Vec3) (strength : ℝ) (rnd : Vec3) : Vec3 :=
  let direction := position - target
  let distance := direction.length
  if distance < 0.1 then (strength * 10) • (rnd - ⟨0.5, 0.5, 0.5⟩)
  else (strength / (distance + 0.1)) • direction.normalize

/-- Embeds `Physics.orbitalForce`: in-plane tangent of the radius vector, scaled
by `speed`; zero within distance `0.1` of the center. -/
noncomputable def orbitalForce (position center : Vec3) (speed : ℝ) : Vec3 :=
  let toCenter := center - position
  let distance := toCenter.length
  if distance < 0.1 then 0
  else speed • (Vec3.mk (-toCenter.y) toCenter.x 0).normalize

/-- Embeds `Physics.applyFriction`: scales the velocity by the friction factor. -/
noncomputable def applyFriction (velocity : Vec3) (friction : ℝ) : Vec3 :=
  friction • velocity

/-- Embeds `Physics.limitSpeed`: clamps the velocity to `maxSpeed` when its
norm exceeds it. -/
noncomputable def limitSpeed (velocity : Vec3) (maxSpeed : ℝ) : Vec3 :=
  if velocity.length > maxSpeed then maxSpeed • velocity.normalize else velocity

/-- Embeds `Physics.randomDrift`: each component is `(random - 0.5) * strength`;
the three draws are the components of `rnd`. -/
noncomputable def randomDrift (strength : ℝ) (rnd : Vec3) : Vec3 :=
  strength • (rnd - ⟨0.5, 0.5, 0.5⟩)

/-- Embeds `Physics.screenToWorld`: anisotropic normalized-to-world mapping. -/
noncomputable def screenToWorld (x y : ℝ) (z : ℝ := 5) : Vec3 :=
  ⟨(x - 0.5) * 2 * 20, -((y - 0.5) * 2 * 15), z⟩

theorem length_limitSpeed (v : Vec3) (m : ℝ) (hm : 0 ≤ m) :
    (limitSpeed v m).length = min v.length m := by
  rw [limitSpeed]
  by_cases h : v.length > m
  · rw [if_pos h, Vec3.length_smul]
    have hvne : v.length ≠ 0 := by
      intro h0
      rw [h0] at h
      exact absurd (lt_of_le_of_lt hm h) (lt_irrefl 0)
    rw [Vec3.length_normalize v hvne, abs_of_nonneg hm]
    rw [min_eq_right (le_of_lt h)]
    ring
  · rw [if_neg h, min_eq_left (not_lt.mp h)]

theorem limitSpeed_of_gt (v : Vec3) (m : ℝ) (hm : 0 ≤ m) (h : v.length > m) :
    limitSpeed v m = (m / v.length) • v := by
  have hvne : v.length ≠ 0 := by
    intro h0
    rw [h0] at h
    exact absurd (lt_of_le_of_lt hm h) (lt_irrefl 0)
  rw [limitSpeed, if_pos h, Vec3.normalize_of_ne_zero v hvne]
  ext <;> (simp; ring)

end Physics

/-! ### GestureDetector -/

/-- The discrete gesture labels appearing in the source (`gesture.type`
strings).  `THUMB_UP` is compared against by `AtomMode.update` even
though the detector's priority chain never produces it. -/
inductive Gesture where
  | NONE
  | PINCH
  | PEACE
  | FULL_OPEN
  | THUMB_UP
deriving DecidableEq, Repr

/-- Embeds `GestureDetector.detect`'s return value `{type, confidence}`. -/
structure GestureResult where
  type : Gesture
  confidence : ℝ

/-- The detector's debounce state: `lastGesture` and
`gestureStableCount`, as initialised in the constructor and mutated by
`detect`. -/
structure DetState where
  lastGesture : Gesture
  gestureStableCount : ℕ
deriving DecidableEq, Repr

/-- Constructor state: `lastGesture = 'NONE'`, `gestureStableCount = 0`. -/
def initState : DetState := ⟨Gesture.NONE, 0⟩

/-- Embeds `this.STABLE_FRAMES = 2`. -/
def STABLE_FRAMES : ℕ := 2

/-- Landmark access `landmarks[i]` (in-range under the 21-point guard). -/
def lmk (lm : List Vec3) (i : ℕ) : Vec3 := lm.getD i 0

/-- Embeds `GestureDetector.calculateDistance`: Euclidean distance of two
landmark points. -/
noncomputable def calculateDistance (p1 p2 : Vec3) : ℝ :=
  Real.sqrt ((p1.x - p2.x) ^ 2 + (p1.y - p2.y) ^ 2 + (p1.z - p2.z) ^ 2)

/-- Embeds `GestureDetector.getFingerCurlAngle`: angle in degrees at the PIP
joint between (MCP−PIP) and (DIP−PIP); `180` when either joint vector is
degenerate; the cosine is clamped to `[-1, 1]` before `acos`. -/
noncomputable def getFingerCurlAngle (lm : List Vec3) (tipIndex : ℕ) : ℝ :=
  let mcp := lmk lm (tipIndex - 3)
  let pip := lmk lm (tipIndex - 2)
  let dip := lmk lm (tipIndex - 1)
  let v1 : Vec3 := ⟨mcp.x - pip.x, mcp.y - pip.y, mcp.z - pip.z⟩
  let v2 : Vec3 := ⟨dip.x - pip.x, dip.y - pip.y, dip.z - pip.z⟩
  let dot := v1.x * v2.x + v1.y * v2.y + v1.z * v2.z
  let mag1 := Real.sqrt (v1.x ^ 2 + v1.y ^ 2 + v1.z ^ 2)
  let mag2 := Real.sqrt (v2.x ^ 2 + v2.y ^ 2 + v2.z ^ 2)
  if mag1 = 0 ∨ mag2 = 0 then 180
  else Real.arccos (max (-1) (min 1 (dot / (mag1 * mag2)))) * (180 / Real.pi)

/-- Embeds `GestureDetector.isFingerExtended` (thresholds: `1.1`, `165`). -/
noncomputable def isFingerExtended (lm : List Vec3) (tipIndex : ℕ) : Prop :=
  calculateDistance (lmk lm tipIndex) (lmk lm (tipIndex - 3)) >
    calculateDistance (lmk lm (tipIndex - 1)) (lmk lm (tipIndex - 3)) * 1.1 ∨
  getFingerCurlAngle lm tipIndex > 165

/-- Embeds `GestureDetector.isFingerCurled` (thresholds: `1.05`, `150`). -/
noncomputable def isFingerCurled (lm : List Vec3) (tipIndex : ℕ) : Prop :=
  calculateDistance (lmk lm tipIndex) (lmk lm (tipIndex - 3)) <
    calculateDistance (lmk lm (tipIndex - 1)) (lmk lm (tipIndex - 3)) * 1.05 ∨
  getFingerCurlAngle lm tipIndex < 150

/-- Embeds `GestureDetector.isThumbExtended` (threshold `1.3`). -/
noncomputable def isThumbExtended (lm : List Vec3) : Prop :=
  calculateDistance (lmk lm 4) (lmk lm 0) >
    calculateDistance (lmk lm 2) (lmk lm 0) * 1.3

/-- Embeds `GestureDetector.getPalmWidth`: distance between the index MCP and
the pinky MCP. -/
noncomputable def getPalmWidth (lm : List Vec3) : ℝ :=
  calculateDistance (lmk lm 5) (lmk lm 17)

/-- Embeds `GestureDetector.isPinch`: thumb and index extended and tip distance
below `PINCH_THRESHOLD = 0.08`. -/
noncomputable def isPinch (lm : List Vec3) : Prop :=
  isThumbExtended lm ∧ isFingerExtended lm 8 ∧
    calculateDistance (lmk lm 4) (lmk lm 8) < 0.08

/-- Embeds `GestureDetector.isPeaceSign`: index and middle extended, ring and
pinky curled, and tip gap above `max(0.025, palmWidth * 0.35)`. -/
noncomputable def isPeaceSign (lm : List Vec3) : Prop :=
  isFingerExtended lm 8 ∧ isFingerExtended lm 12 ∧
    isFingerCurled lm 16 ∧ isFingerCurled lm 20 ∧
    calculateDistance (lmk lm 8) (lmk lm 12) > max 0.025 (getPalmWidth lm * 0.35)

/-- Embeds `GestureDetector.isFullHandOpen`: all four fingers and the thumb
extended, palm width above `FULL_OPEN_SPREAD_THRESHOLD = 0.15`. -/
noncomputable def isFullHandOpen (lm : List Vec3) : Prop :=
  (isFingerExtended lm 8 ∧ isFingerExtended lm 12 ∧
    isFingerExtended lm 16 ∧ isFingerExtended lm 20) ∧
  isThumbExtended lm ∧ getPalmWidth lm > 0.15

/-- The raw per-frame classification of `detect` (its priority chain,
before the stability filter), together with the confidence it assigns. -/
noncomputable def rawGesture (lm : List Vec3) : Gesture × ℝ :=
  if isPinch lm then (Gesture.PINCH, 0.9)
  else if isPeaceSign lm then (Gesture.PEACE, 0.85)
  else if isFullHandOpen lm then (Gesture.FULL_OPEN, 0.9)
  else (Gesture.NONE, 0)

/-- The stability filter of `detect` (lines 77-91 of the source): update
`lastGesture` / `gestureStableCount`, then emit the raw gesture only if
the count has reached `STABLE_FRAMES`. -/
def stabilize (st : DetState) (gesture : Gesture) (confidence : ℝ) :
    GestureResult × DetState :=
  let st' : DetState :=
    if gesture = st.lastGesture
    then ⟨st.lastGesture, st.gestureStableCount + 1⟩
    else ⟨gesture, 0⟩
  if st'.gestureStableCount ≥ STABLE_FRAMES
  then (⟨gesture, confidence⟩, st')
  else (⟨Gesture.NONE, 0⟩, st')

/-- Embeds `GestureDetector.detect`: `null` landmarks or a count other than 21
return `{NONE, 0}` immediately (the debounce state is untouched by the
early return); otherwise classify and run the stability filter. -/
noncomputable def detect (landmarks : Option (List Vec3)) (st : DetState) :
    GestureResult × DetState :=
  match landmarks with
  | none => (⟨Gesture.NONE, 0⟩, st)
  | some lm =>
    if lm.length ≠ 21 then (⟨Gesture.NONE, 0⟩, st)
    else stabilize st (rawGesture lm).1 (rawGesture lm).2

/-! ### ParticleSystem -/

/-- The particle buffer owned by `ParticleSystem`: per-index positions,
velocities, colors and sizes (colors as RGB triples). -/
structure PState where
  positions : List Vec3
  velocities : List Vec3
  colors : List Vec3
  sizes : List ℝ

/-- One iteration of the `applyForce` loop body: evaluate the force
function at the particle's position and index; if it returns a vector
(`null` is `none`), add it to the velocity and clamp to max speed 5.0. -/
noncomputable def applyForceStep (position velocity : Vec3) (i : ℕ)
    (forceFunction : Vec3 → ℕ → Option Vec3) : Vec3 :=
  match forceFunction position i with
  | none => velocity
  | some force => Physics.limitSpeed (velocity + force) 5.0

/-- The `applyForce` loop over the parallel position/velocity arrays,
carrying the running index `i`. -/
noncomputable def applyForceAux (forceFunction : Vec3 → ℕ → Option Vec3) :
    ℕ → List Vec3 → List Vec3 → List Vec3
  | i, p :: ps, v :: vs =>
      applyForceStep p v i forceFunction :: applyForceAux forceFunction (i + 1) ps vs
  | _, _, vs => vs

/-- Embeds `ParticleSystem.applyForce`: rewrites only the velocities. -/
noncomputable def psApplyForce (s : PState) (forceFunction : Vec3 → ℕ → Option Vec3) :
    PState :=
  { s with velocities := applyForceAux forceFunction 0 s.positions s.velocities }

/-- Embeds `ParticleSystem.update(deltaTime, time)`: explicit Euler step
`position += velocity * deltaTime * 2.0` followed by friction
`velocity *= 0.95` for every particle. -/
noncomputable def psUpdate (s : PState) (deltaTime : ℝ) : PState :=
  { s with
    positions := List.zipWith
      (fun p v => p + (deltaTime * 2.0) • v) s.positions s.velocities,
    velocities := s.velocities.map (fun v => Physics.applyFriction v 0.95) }

/-! ### AtomMode -/

/-- The force closure `AtomMode.update` passes to `applyForce`, for a
particle at `position` whose assigned orbital radius is `orbitRadius`.
`handPosition` is the palm-center landmark point (or `none`); `rnd`
carries the draws of the repulsion fallback and `drift` the draws of the
`randomDrift(0.05)` term. -/
noncomputable def atomForce (nucleusPosition : Vec3) (orbitRadius : ℝ)
    (handPosition : Option Vec3) (gesture : Gesture) (rnd drift : Vec3)
    (position : Vec3) : Vec3 :=
  let toCenter := nucleusPosition - position
  let dist := if toCenter.length = 0 then 0.0001 else toCenter.length
  let outwardDir := (position - nucleusPosition).normalize
  let radialError := dist - orbitRadius
  let force := (-radialError * 0.45) • outwardDir
  let force := force + Physics.orbitalForce position nucleusPosition 0.8
  let force :=
    match handPosition with
    | some hp =>
      let worldPos := Physics.screenToWorld hp.x hp.y 0
      if gesture = Gesture.THUMB_UP then
        force + Physics.repulsionForce position worldPos 8.0 rnd
      else if gesture = Gesture.PINCH then
        force + Physics.attractionForce position worldPos 10.0
      else if gesture = Gesture.PEACE then
        force + Physics.orbitalForce position nucleusPosition 1.5
      else force
    | none => force
  force + Physics.randomDrift 0.05 drift

/-! ### Concrete landmark frames used as witnesses -/

/-- Helper: evaluate `calculateDistance` at points whose squared
distance is a perfect square. -/
theorem calcDist_eq {p q : Vec3} {a : ℝ} (ha : 0 ≤ a)
    (h : (p.x - q.x) ^ 2 + (p.y - q.y) ^ 2 + (p.z - q.z) ^ 2 = a ^ 2) :
    calculateDistance p q = a := by
  rw [calculateDistance, h, Real.sqrt_sq ha]

/-- A synthetic 21-point frame satisfying both the PINCH and the PEACE
predicates: thumb and index extended with touching tips, middle
extended, ring and pinky curled, V-gap above the palm-relative
threshold. -/
noncomputable def pinchPeaceFrame : List Vec3 :=
  [⟨0, 0, 0⟩, ⟨0.05, 0, 0⟩, ⟨0.1, 0, 0⟩, ⟨0.15, 0, 0⟩, ⟨0.2, 0, 0⟩,
   ⟨0.2, 0.5, 0⟩, ⟨0.2, 0.45, 0⟩, ⟨0.2, 0.4, 0⟩, ⟨0.2, 0.05, 0⟩,
   ⟨0.3, 0.5, 0⟩, ⟨0.3, 0.45, 0⟩, ⟨0.3, 0.4, 0⟩, ⟨0.3, 0.05, 0⟩,
   ⟨0.32, 0.5, 0⟩, ⟨0.32, 0.42, 0⟩, ⟨0.32, 0.4, 0⟩, ⟨0.32, 0.45, 0⟩,
   ⟨0.35, 0.5, 0⟩, ⟨0.35, 0.42, 0⟩, ⟨0.35, 0.4, 0⟩, ⟨0.35, 0.45, 0⟩]

/-- A degenerate 21-point frame (all points at the origin), whose raw
classification is `NONE`. -/
noncomputable def zeroFrame : List Vec3 :=
  [⟨0, 0, 0⟩, ⟨0, 0, 0⟩, ⟨0, 0, 0⟩, ⟨0, 0, 0⟩, ⟨0, 0, 0⟩,
   ⟨0, 0, 0⟩, ⟨0, 0, 0⟩, ⟨0, 0, 0⟩, ⟨0, 0, 0⟩, ⟨0, 0, 0⟩,
   ⟨0, 0, 0⟩, ⟨0, 0, 0⟩, ⟨0, 0, 0⟩, ⟨0, 0, 0⟩, ⟨0, 0, 0⟩,
   ⟨0, 0, 0⟩, ⟨0, 0, 0⟩, ⟨0, 0, 0⟩, ⟨0, 0, 0⟩, ⟨0, 0, 0⟩, ⟨0, 0, 0⟩]

theorem pinchPeaceFrame_length : pinchPeaceFrame.length = 21 := by
  simp [pinchPeaceFrame]

theorem zeroFrame_length : zeroFrame.length = 21 := by
  simp [zeroFrame]

theorem isPinch_pp : isPinch pinchPeaceFrame := by
  refine ⟨?_, Or.inl ?_, ?_⟩
  · show calculateDistance ⟨0.2, 0, 0⟩ ⟨0, 0, 0⟩ >
      calculateDistance ⟨0.1, 0, 0⟩ ⟨0, 0, 0⟩ * 1.3
    rw [show calculateDistance ⟨0.2, 0, 0⟩ ⟨0, 0, 0⟩ = 0.2 from
          calcDist_eq (by norm_num) (by norm_num),
        show calculateDistance ⟨0.1, 0, 0⟩ ⟨0, 0, 0⟩ = 0.1 from
          calcDist_eq (by norm_num) (by norm_num)]
    norm_num
  · show calculateDistance ⟨0.2, 0.05, 0⟩ ⟨0.2, 0.5, 0⟩ >
      calculateDistance ⟨0.2, 0.4, 0⟩ ⟨0.2, 0.5, 0⟩ * 1.1
    rw [show calculateDistance ⟨0.2, 0.05, 0⟩ ⟨0.2, 0.5, 0⟩ = 0.45 from
          calcDist_eq (by norm_num) (by norm_num),
        show calculateDistance ⟨0.2, 0.4, 0⟩ ⟨0.2, 0.5, 0⟩ = 0.1 from
          calcDist_eq (by norm_num) (by norm_num)]
    norm_num
  · show calculateDistance ⟨0.2, 0, 0⟩ ⟨0.2, 0.05, 0⟩ < 0.08
    rw [show calculateDistance ⟨0.2, 0, 0⟩ ⟨0.2, 0.05, 0⟩ = 0.05 from
          calcDist_eq (by norm_num) (by norm_num)]
    norm_num

theorem isPeaceSign_pp : isPeaceSign pinchPeaceFrame := by
  refine ⟨Or.inl ?_, Or.inl ?_, Or.inl ?_, Or.inl ?_, ?_⟩
  · show calculateDistance ⟨0.2, 0.05, 0⟩ ⟨0.2, 0.5, 0⟩ >
      calculateDistance ⟨0.2, 0.4, 0⟩ ⟨0.2, 0.5, 0⟩ * 1.1
    rw [show calculateDistance ⟨0.2, 0.05, 0⟩ ⟨0.2, 0.5, 0⟩ = 0.45 from
          calcDist_eq (by norm_num) (by norm_num),
        show calculateDistance ⟨0.2, 0.4, 0⟩ ⟨0.2, 0.5, 0⟩ = 0.1 from
          calcDist_eq (by norm_num) (by norm_num)]
    norm_num
  · show calculateDistance ⟨0.3, 0.05, 0⟩ ⟨0.3, 0.5, 0⟩ >
      calculateDistance ⟨0.3, 0.4, 0⟩ ⟨0.3, 0.5, 0⟩ * 1.1
    rw [show calculateDistance ⟨0.3, 0.05, 0⟩ ⟨0.3, 0.5, 0⟩ = 0.45 from
          calcDist_eq (by norm_num) (by norm_num),
        show calculateDistance ⟨0.3, 0.4, 0⟩ ⟨0.3, 0.5, 0⟩ = 0.1 from
          calcDist_eq (by norm_num) (by norm_num)]
    norm_num
  · show calculateDistance ⟨0.32, 0.45, 0⟩ ⟨0.32, 0.5, 0⟩ <
      calculateDistance ⟨0.32, 0.4, 0⟩ ⟨0.32, 0.5, 0⟩ * 1.05
    rw [show calculateDistance ⟨0.32, 0.45, 0⟩ ⟨0.32, 0.5, 0⟩ = 0.05 from
          calcDist_eq (by norm_num) (by norm_num),
        show calculateDistance ⟨0.32, 0.4, 0⟩ ⟨0.32, 0.5, 0⟩ = 0.1 from
          calcDist_eq (by norm_num) (by norm_num)]
    norm_num
  · show calculateDistance ⟨0.35, 0.45, 0⟩ ⟨0.35, 0.5, 0⟩ <
      calculateDistance ⟨0.35, 0.4, 0⟩ ⟨0.35, 0.5, 0⟩ * 1.05
    rw [show calculateDistance ⟨0.35, 0.45, 0⟩ ⟨0.35, 0.5, 0⟩ = 0.05 from
          calcDist_eq (by norm_num) (by norm_num),
        show calculateDistance ⟨0.35, 0.4, 0⟩ ⟨0.35, 0.5, 0⟩ = 0.1 from
          calcDist_eq (by norm_num) (by norm_num)]
    norm_num
  · show calculateDistance ⟨0.2, 0.05, 0⟩ ⟨0.3, 0.05, 0⟩ >
      max 0.025 (getPalmWidth pinchPeaceFrame * 0.35)
    have hpw : getPalmWidth pinchPeaceFrame = 0.15 := by
      show calculateDistance ⟨0.2, 0.5, 0⟩ ⟨0.35, 0.5, 0⟩ = 0.15
      exact calcDist_eq (by norm_num) (by norm_num)
    rw [hpw,
        show calculateDistance ⟨0.2, 0.05, 0⟩ ⟨0.3, 0.05, 0⟩ = 0.1 from
          calcDist_eq (by norm_num) (by norm_num),
        show max (0.025 : ℝ) (0.15 * 0.35) = 0.0525 by rw [max_eq_right] <;> norm_num]
    norm_num

theorem rawGesture_pp : rawGesture pinchPeaceFrame = (Gesture.PINCH, 0.9) := by
  rw [rawGesture, if_pos isPinch_pp]

theorem not_isThumbExtended_zf : ¬ isThumbExtended zeroFrame := by
  intro h
  have h' : calculateDistance (⟨0, 0, 0⟩ : Vec3) ⟨0, 0, 0⟩ >
      calculateDistance (⟨0, 0, 0⟩ : Vec3) ⟨0, 0, 0⟩ * 1.3 := h
  rw [show calculateDistance (⟨0, 0, 0⟩ : Vec3) ⟨0, 0, 0⟩ = 0 from
        calcDist_eq le_rfl (by norm_num)] at h'
  norm_num at h'

theorem not_isFingerCurled_zf_16 : ¬ isFingerCurled zeroFrame 16 := by
  intro h
  rcases h with h | h
  · have h' : calculateDistance (⟨0, 0, 0⟩ : Vec3) ⟨0, 0, 0⟩ <
        calculateDistance (⟨0, 0, 0⟩ : Vec3) ⟨0, 0, 0⟩ * 1.05 := h
    rw [show calculateDistance (⟨0, 0, 0⟩ : Vec3) ⟨0, 0, 0⟩ = 0 from
          calcDist_eq le_rfl (by norm_num)] at h'
    norm_num at h'
  · have hang : getFingerCurlAngle zeroFrame 16 = 180 := by
      rw [getFingerCurlAngle]
      simp [lmk, zeroFrame]
    rw [hang] at h
    norm_num at h

theorem rawGesture_zf : rawGesture zeroFrame = (Gesture.NONE, 0) := by
  rw [rawGesture,
      if_neg (fun h => not_isThumbExtended_zf h.1),
      if_neg (fun h => not_isFingerCurled_zf_16 h.2.2.1),
      if_neg (fun h => not_isThumbExtended_zf h.2.1)]

/-! ### Detector lemmas -/

theorem detect_some (lm : List Vec3) (st : DetState) (h : lm.length = 21) :
    detect (some lm) st = stabilize st (rawGesture lm).1 (rawGesture lm).2 := by
  unfold detect
  simp [h]

theorem stabilize_ne (st : DetState) (g : Gesture) (c : ℝ) (h : g ≠ st.lastGesture) :
    stabilize st g c = (⟨Gesture.NONE, 0⟩, ⟨g, 0⟩) := by
  rw [stabilize]
  simp [h, STABLE_FRAMES]

theorem stabilize_eq_lt (st : DetState) (g : Gesture) (c : ℝ) (h : g = st.lastGesture)
    (h2 : st.gestureStableCount + 1 < STABLE_FRAMES) :
    stabilize st g c = (⟨Gesture.NONE, 0⟩, ⟨st.lastGesture, st.gestureStableCount + 1⟩) := by
  rw [stabilize]
  simp only [if_pos h]
  rw [if_neg (by exact not_le.mpr h2)]

theorem stabilize_eq_ge (st : DetState) (g : Gesture) (c : ℝ) (h : g = st.lastGesture)
    (h2 : st.gestureStableCount + 1 ≥ STABLE_FRAMES) :
    stabilize st g c = (⟨g, c⟩, ⟨st.lastGesture, st.gestureStableCount + 1⟩) := by
  rw [stabilize]
  simp only [if_pos h]
  rw [if_pos (by exact h2)]

theorem rawGesture_conf_ne_zero (lm : List Vec3) (G : Gesture) (c : ℝ)
    (h : rawGesture lm = (G, c)) (hG : G ≠ Gesture.NONE) : c ≠ 0 := by
  rw [rawGesture] at h
  by_cases h1 : isPinch lm
  · rw [if_pos h1] at h
    obtain ⟨-, hc⟩ := Prod.mk.injEq .. ▸ h
    rw [← hc]
    norm_num
  · rw [if_neg h1] at h
    by_cases h2 : isPeaceSign lm
    · rw [if_pos h2] at h
      obtain ⟨-, hc⟩ := Prod.mk.injEq .. ▸ h
      rw [← hc]
      norm_num
    · rw [if_neg h2] at h
      by_cases h3 : isFullHandOpen lm
      · rw [if_pos h3] at h
        obtain ⟨-, hc⟩ := Prod.mk.injEq .. ▸ h
        rw [← hc]
        norm_num
      · rw [if_neg h3] at h
        obtain ⟨hg, -⟩ := Prod.mk.injEq .. ▸ h
        exact absurd hg.symm hG

/-- C5: if a 21-point frame satisfies both the PINCH and the PEACE
predicates, the raw classification of `GestureDetector.detect` is PINCH
(first match in the fixed priority chain wins). -/
theorem pinch_priority (lm : List Vec3) (h1 : isPinch lm) (h2 : isPeaceSign lm) :
    (rawGesture lm).1 = Gesture.PINCH := by
  rw [rawGesture, if_pos h1]

theorem pinch_priority_witness :
    isPinch pinchPeaceFrame ∧ isPeaceSign pinchPeaceFrame ∧
    (rawGesture pinchPeaceFrame).1 = Gesture.PINCH :=
  ⟨isPinch_pp, isPeaceSign_pp, pinch_priority pinchPeaceFrame isPinch_pp isPeaceSign_pp⟩

/-- C1 (counterexample): with the pinch-classified frame fed from the
fresh debounce state, the `STABLE_FRAMES`-th (second) consecutive
identical frame still yields `NONE`, not the classified type: the reset
on a gesture change sets the count to 0, so `STABLE_FRAMES + 1` frames
are needed. -/
theorem stability_counterexample :
    (rawGesture pinchPeaceFrame).1 = Gesture.PINCH ∧
    initState.lastGesture ≠ Gesture.PINCH ∧
    (detect (some pinchPeaceFrame) initState).1 = ⟨Gesture.NONE, 0⟩ ∧
    (detect (some pinchPeaceFrame)
      (detect (some pinchPeaceFrame) initState).2).1.type = Gesture.NONE ∧
    Gesture.NONE ≠ Gesture.PINCH := by
  have hd := detect_some pinchPeaceFrame initState pinchPeaceFrame_length
  rw [rawGesture_pp] at hd
  have h1 : detect (some pinchPeaceFrame) initState =
      (⟨Gesture.NONE, 0⟩, ⟨Gesture.PINCH, 0⟩) := by
    rw [hd, stabilize_ne _ _ _ (by decide)]
  have hd2 := detect_some pinchPeaceFrame (⟨Gesture.PINCH, 0⟩ : DetState)
    pinchPeaceFrame_length
  rw [rawGesture_pp] at hd2
  have h2 : detect (some pinchPeaceFrame) (⟨Gesture.PINCH, 0⟩ : DetState) =
      (⟨Gesture.NONE, 0⟩, ⟨Gesture.PINCH, 1⟩) := by
    rw [hd2, stabilize_eq_lt _ _ _ rfl (by decide)]
  refine ⟨by rw [rawGesture_pp], by decide, by rw [h1], ?_, by decide⟩
  rw [h1]
  rw [h2]

/-- C1 (amended): for a frame whose raw classification is a fixed
non-NONE gesture `G`, starting from a debounce state whose
`lastGesture` differs from `G`, the first `STABLE_FRAMES` consecutive
identical frames each yield `{NONE, 0}`, and the
`(STABLE_FRAMES + 1)`-th yields type `G` with its nonzero confidence. -/
theorem stability_amended (lm : List Vec3) (G : Gesture) (c : ℝ) (st0 : DetState)
    (hlen : lm.length = 21) (hraw : rawGesture lm = (G, c))
    (hG : G ≠ Gesture.NONE) (h0 : st0.lastGesture ≠ G) :
    (detect (some lm) st0).1 = ⟨Gesture.NONE, 0⟩ ∧
    (detect (some lm) (detect (some lm) st0).2).1 = ⟨Gesture.NONE, 0⟩ ∧
    (detect (some lm)
      (detect (some lm) (detect (some lm) st0).2).2).1.type = G ∧
    (detect (some lm)
      (detect (some lm) (detect (some lm) st0).2).2).1.confidence ≠ 0 := by
  have hc : c ≠ 0 := rawGesture_conf_ne_zero lm G c hraw hG
  have hd : ∀ st : DetState, detect (some lm) st = stabilize st G c := by
    intro st
    rw [detect_some lm st hlen, hraw]
  have h1 : detect (some lm) st0 = (⟨Gesture.NONE, 0⟩, ⟨G, 0⟩) := by
    rw [hd, stabilize_ne _ _ _ (Ne.symm h0)]
  have h2 : detect (some lm) (⟨G, 0⟩ : DetState) =
      (⟨Gesture.NONE, 0⟩, ⟨G, 1⟩) := by
    rw [hd, stabilize_eq_lt _ _ _ rfl (by show 0 + 1 < STABLE_FRAMES; decide)]
  have h3 : detect (some lm) (⟨G, 1⟩ : DetState) = (⟨G, c⟩, ⟨G, 2⟩) := by
    rw [hd, stabilize_eq_ge _ _ _ rfl (by show 1 + 1 ≥ STABLE_FRAMES; decide)]
  refine ⟨by rw [h1], ?_, ?_, ?_⟩
  · rw [h1, h2]
  · rw [h1, h2, h3]
  · rw [h1, h2, h3]
    exact hc

theorem stability_amended_witness :
    (detect (some pinchPeaceFrame) initState).1 = ⟨Gesture.NONE, 0⟩ ∧
    (detect (some pinchPeaceFrame)
      (detect (some pinchPeaceFrame) initState).2).1 = ⟨Gesture.NONE, 0⟩ ∧
    (detect (some pinchPeaceFrame)
      (detect (some pinchPeaceFrame)
        (detect (some pinchPeaceFrame) initState).2).2).1.type = Gesture.PINCH ∧
    (detect (some pinchPeaceFrame)
      (detect (some pinchPeaceFrame)
        (detect (some pinchPeaceFrame) initState).2).2).1.confidence ≠ 0 :=
  stability_amended pinchPeaceFrame Gesture.PINCH 0.9 initState
    pinchPeaceFrame_length rawGesture_pp (by decide) (by decide)

/-- C2 (counterexample): a malformed frame (here: absent landmarks)
leaves the debounce state untouched, whereas a valid frame whose raw
classification is `NONE` advances it (reset to `⟨NONE, 0⟩` from
`⟨PINCH, 0⟩`); the two final states differ. -/
theorem malformed_counterexample :
    (rawGesture zeroFrame).1 = Gesture.NONE ∧ zeroFrame.length = 21 ∧
    (detect none ⟨Gesture.PINCH, 0⟩).2 ≠
      (detect (some zeroFrame) ⟨Gesture.PINCH, 0⟩).2 := by
  refine ⟨by rw [rawGesture_zf], zeroFrame_length, ?_⟩
  have h2 : detect (some zeroFrame) ⟨Gesture.PINCH, 0⟩ =
      (⟨Gesture.NONE, 0⟩, ⟨Gesture.NONE, 0⟩) := by
    rw [detect_some zeroFrame _ zeroFrame_length, rawGesture_zf,
      stabilize_ne _ _ _ (by decide)]
  have h1 : detect none (⟨Gesture.PINCH, 0⟩ : DetState) =
      (⟨Gesture.NONE, 0⟩, ⟨Gesture.PINCH, 0⟩) := rfl
  rw [h1, h2]
  decide

/-- C2 (amended): absent landmarks or a landmark count other than 21
make `detect` return `{NONE, 0}` and leave the debounce state exactly
unchanged (the early return does not run the debounce update). -/
theorem malformed_amended (st : DetState) :
    detect none st = (⟨Gesture.NONE, 0⟩, st) ∧
    ∀ lm : List Vec3, lm.length ≠ 21 →
      detect (some lm) st = (⟨Gesture.NONE, 0⟩, st) := by
  refine ⟨rfl, ?_⟩
  intro lm h
  unfold detect
  simp [h]

theorem malformed_amended_witness :
    detect none ⟨Gesture.PINCH, 5⟩ = (⟨Gesture.NONE, 0⟩, ⟨Gesture.PINCH, 5⟩) ∧
    detect (some []) ⟨Gesture.PINCH, 5⟩ = (⟨Gesture.NONE, 0⟩, ⟨Gesture.PINCH, 5⟩) :=
  ⟨(malformed_amended _).1, (malformed_amended _).2 [] (by decide)⟩

/-! ### C8: alternating raw gestures -/

/-- The raw gesture of frame `n` in an alternating run. -/
def altGesture (g1 g2 : Gesture) (n : ℕ) : Gesture :=
  if n % 2 = 0 then g1 else g2

/-- Debounce state after `n` frames of the alternating run, starting
from the constructor state. -/
def altState (g1 g2 : Gesture) (c1 c2 : ℝ) : ℕ → DetState
  | 0 => initState
  | n + 1 =>
    (stabilize (altState g1 g2 c1 c2 n) (altGesture g1 g2 n)
      (if n % 2 = 0 then c1 else c2)).2

/-- Emitted result of frame `n` in the alternating run. -/
def altOutput (g1 g2 : Gesture) (c1 c2 : ℝ) (n : ℕ) : GestureResult :=
  (stabilize (altState g1 g2 c1 c2 n) (altGesture g1 g2 n)
    (if n % 2 = 0 then c1 else c2)).1

theorem altGesture_succ_ne (g1 g2 : Gesture) (h : g1 ≠ g2) (n : ℕ) :
    altGesture g1 g2 (n + 1) ≠ altGesture g1 g2 n := by
  rcases Nat.mod_two_eq_zero_or_one n with h0 | h0
  · have h1 : (n + 1) % 2 = 1 := by omega
    rw [altGesture, altGesture, h0, h1]
    simp [Ne.symm h]
  · have h1 : (n + 1) % 2 = 0 := by omega
    rw [altGesture, altGesture, h0, h1]
    simp [h]

theorem alternation_invariant (g1 g2 : Gesture) (c1 c2 : ℝ) (h : g1 ≠ g2) (n : ℕ) :
    (altState g1 g2 c1 c2 (n + 1)).lastGesture = altGesture g1 g2 n ∧
    (altState g1 g2 c1 c2 (n + 1)).gestureStableCount ≤ 1 ∧
    altOutput g1 g2 c1 c2 n = ⟨Gesture.NONE, 0⟩ := by
  induction n with
  | zero =>
    rw [altState, altOutput, show altState g1 g2 c1 c2 0 = initState from rfl]
    by_cases h0 : altGesture g1 g2 0 = initState.lastGesture
    · rw [stabilize_eq_lt _ _ _ h0 (by decide)]
      exact ⟨h0.symm, by decide, rfl⟩
    · rw [stabilize_ne _ _ _ h0]
      exact ⟨rfl, by show (0 : ℕ) ≤ 1; decide, rfl⟩
  | succ n ih =>
    have hne : altGesture g1 g2 (n + 1) ≠
        (altState g1 g2 c1 c2 (n + 1)).lastGesture := by
      rw [ih.1]
      exact altGesture_succ_ne g1 g2 h n
    rw [altState, altOutput, stabilize_ne _ _ _ hne]
    exact ⟨rfl, by show (0 : ℕ) ≤ 1; decide, rfl⟩

/-- C8: alternating two distinct raw gestures on every frame, starting
from the constructor's debounce state, never emits a non-NONE result:
every frame yields `{NONE, 0}` and the stability count stays below
`STABLE_FRAMES`. -/
theorem alternation_never_emits (g1 g2 : Gesture) (c1 c2 : ℝ) (h : g1 ≠ g2) (n : ℕ) :
    altOutput g1 g2 c1 c2 n = ⟨Gesture.NONE, 0⟩ ∧
    (altState g1 g2 c1 c2 (n + 1)).gestureStableCount < STABLE_FRAMES := by
  obtain ⟨-, hcnt, hout⟩ := alternation_invariant g1 g2 c1 c2 h n
  exact ⟨hout, lt_of_le_of_lt hcnt (by decide)⟩

theorem alternation_never_emits_witness :
    altOutput Gesture.PINCH Gesture.PEACE 0.9 0.85 3 = ⟨Gesture.NONE, 0⟩ ∧
    (altState Gesture.PINCH Gesture.PEACE 0.9 0.85 4).gestureStableCount <
      STABLE_FRAMES :=
  alternation_never_emits Gesture.PINCH Gesture.PEACE 0.9 0.85 (by decide) 3

/-! ### ParticleSystem claims -/

theorem get?_zipWith_some {α β γ : Type} (f : α → β → γ) :
    ∀ (l1 : List α) (l2 : List β) (i : ℕ) (a : α) (b : β),
      l1.get? i = some a → l2.get? i = some b →
      (List.zipWith f l1 l2).get? i = some (f a b) := by
  intro l1
  induction l1 with
  | nil => intro l2 i a b h1; simp at h1
  | cons x xs ih =>
    intro l2 i a b h1 h2
    cases l2 with
    | nil => simp at h2
    | cons y ys =>
      cases i with
      | zero =>
        simp only [List.get?] at h1 h2
        obtain rfl : x = a := by injection h1
        obtain rfl : y = b := by injection h2
        rfl
      | succ i' =>
        simp only [List.get?] at h1 h2
        exact ih ys i' a b h1 h2

/-- C9: `ParticleSystem.applyForce` mutates only the velocities: the
positions, colors and sizes are all unchanged by the call. -/
theorem applyForce_mutates_only_velocities (s : PState)
    (forceFunction : Vec3 → ℕ → Option Vec3) :
    (psApplyForce s forceFunction).positions = s.positions ∧
    (psApplyForce s forceFunction).colors = s.colors ∧
    (psApplyForce s forceFunction).sizes = s.sizes :=
  ⟨rfl, rfl, rfl⟩

/-- C6: one `update` step moves every particle by
`velocity * deltaTime * 2.0`, scales its velocity by exactly `0.95`, and
hence the speed after the step is at most `0.95` times the old speed. -/
theorem integrate_step (s : PState) (dt : ℝ) (i : ℕ) (p v : Vec3)
    (hp : s.positions.get? i = some p) (hv : s.velocities.get? i = some v) :
    (psUpdate s dt).positions.get? i = some (p + (dt * 2.0) • v) ∧
    (psUpdate s dt).velocities.get? i = some ((0.95 : ℝ) • v) ∧
    (v ≠ 0 → ((0.95 : ℝ) • v).length ≤ 0.95 * v.length) := by
  refine ⟨?_, ?_, ?_⟩
  · exact get?_zipWith_some _ s.positions s.velocities i p v hp hv
  · show (s.velocities.map (fun w => Physics.applyFriction w 0.95)).get? i =
      some ((0.95 : ℝ) • v)
    rw [List.get?_map, hv]
    rfl
  · intro _
    rw [Vec3.length_smul]
    rw [show |(0.95 : ℝ)| = 0.95 from abs_of_pos (by norm_num)]

theorem integrate_step_witness :
    (psUpdate ⟨[⟨0, 0, 0⟩], [⟨1, 0, 0⟩], [], []⟩ 1).positions.get? 0 =
      some (⟨0, 0, 0⟩ + ((1 : ℝ) * 2.0) • ⟨1, 0, 0⟩) ∧
    (psUpdate ⟨[⟨0, 0, 0⟩], [⟨1, 0, 0⟩], [], []⟩ 1).velocities.get? 0 =
      some ((0.95 : ℝ) • ⟨1, 0, 0⟩) ∧
    ((0.95 : ℝ) • (⟨1, 0, 0⟩ : Vec3)).length ≤ 0.95 * (⟨1, 0, 0⟩ : Vec3).length := by
  have h := integrate_step ⟨[⟨0, 0, 0⟩], [⟨1, 0, 0⟩], [], []⟩ 1 0 ⟨0, 0, 0⟩ ⟨1, 0, 0⟩
    rfl rfl
  refine ⟨h.1, h.2.1, h.2.2 ?_⟩
  intro hv
  have h1 : (1 : ℝ) = 0 := congrArg Vec3.x hv
  norm_num at h1

/-! ### C3: velocity clamping across applyForce sequences -/

theorem Vec3.zero_add (v : Vec3) : (0 : Vec3) + v = v := by
  ext <;> simp

theorem applyForceAux_get? (f : Vec3 → ℕ → Option Vec3) :
    ∀ (ps vs : List Vec3) (k i : ℕ) (p v : Vec3),
      ps.get? i = some p → vs.get? i = some v →
      (applyForceAux f k ps vs).get? i = some (applyForceStep p v (k + i) f) := by
  intro ps
  induction ps with
  | nil => intro vs k i p v h1; simp at h1
  | cons q qs ih =>
    intro vs k i p v h1 h2
    cases vs with
    | nil => simp at h2
    | cons w ws =>
      cases i with
      | zero =>
        simp only [List.get?] at h1 h2
        obtain rfl : q = p := by injection h1
        obtain rfl : w = v := by injection h2
        rfl
      | succ i' =>
        simp only [List.get?] at h1 h2
        rw [applyForceAux]
        show (applyForceAux f (k + 1) qs ws).get? i' =
          some (applyForceStep p v (k + (i' + 1)) f)
        rw [ih ws (k + 1) i' p v h1 h2, show k + 1 + i' = k + (i' + 1) by omega]

theorem psApplyForce_velocity (s : PState) (f : Vec3 → ℕ → Option Vec3)
    (i : ℕ) (p v : Vec3)
    (hp : s.positions.get? i = some p) (hv : s.velocities.get? i = some v) :
    (psApplyForce s f).velocities.get? i = some (applyForceStep p v i f) := by
  show (applyForceAux f 0 s.positions s.velocities).get? i =
    some (applyForceStep p v i f)
  rw [applyForceAux_get? f s.positions s.velocities 0 i p v hp hv,
    Nat.zero_add]

theorem foldl_psApplyForce_velocity (i : ℕ) (p : Vec3) :
    ∀ (fns : List (Vec3 → ℕ → Option Vec3)) (F : List Vec3) (s : PState) (v : Vec3),
      List.Forall₂ (fun fn fv => fn p i = some fv) fns F →
      s.positions.get? i = some p → s.velocities.get? i = some v →
      (fns.foldl psApplyForce s).velocities.get? i =
        some (F.foldl (fun w fv => Physics.limitSpeed (w + fv) 5.0) v) := by
  intro fns
  induction fns with
  | nil =>
    intro F s v hF hp hv
    cases hF
    exact hv
  | cons fn fns' ih =>
    intro F s v hF hp hv
    cases hF with
    | cons hfn hrest =>
      rw [List.foldl_cons, List.foldl_cons]
      refine ih _ (psApplyForce s fn) _ hrest hp ?_
      rw [psApplyForce_velocity s fn i p v hp hv]
      simp only [applyForceStep, hfn]

theorem foldl_limitSpeed_le (F : List Vec3) :
    ∀ v : Vec3, F ≠ [] →
      (F.foldl (fun w fv => Physics.limitSpeed (w + fv) 5.0) v).length ≤ 5.0 := by
  induction F with
  | nil => intro v h; exact absurd rfl h
  | cons f F' ih =>
    intro v _
    rw [List.foldl_cons]
    cases F' with
    | nil =>
      show (Physics.limitSpeed (v + f) 5.0).length ≤ 5.0
      rw [Physics.length_limitSpeed _ _ (by norm_num)]
      exact min_le_right _ _
    | cons g G => exact ih _ (by simp)

/-- C3 (amended): for a particle starting at rest, any sequence of
`applyForce` calls each delivering a non-null force keeps the final
speed at most the max speed 5.0; when the sequence is a single force
`f` with `|f| > 5.0`, the final velocity is exactly `(5.0/|f|) • f` —
magnitude exactly 5.0 with direction `f` normalized.  (For longer
sequences the per-call clamping makes the result depend on the order of
the forces, not only on their cumulative sum.) -/
theorem applyForce_clamp_amended (s : PState) (i : ℕ) (p : Vec3)
    (fns : List (Vec3 → ℕ → Option Vec3)) (F : List Vec3)
    (hp : s.positions.get? i = some p) (hv : s.velocities.get? i = some 0)
    (hF : List.Forall₂ (fun fn fv => fn p i = some fv) fns F) :
    (fns.foldl psApplyForce s).velocities.get? i =
      some (F.foldl (fun w fv => Physics.limitSpeed (w + fv) 5.0) 0) ∧
    (F ≠ [] →
      (F.foldl (fun w fv => Physics.limitSpeed (w + fv) 5.0) (0 : Vec3)).length ≤ 5.0) ∧
    (∀ f : Vec3, F = [f] → 5.0 < f.length →
      (F.foldl (fun w fv => Physics.limitSpeed (w + fv) 5.0) (0 : Vec3)) =
        (5.0 / f.length) • f ∧
      (F.foldl (fun w fv => Physics.limitSpeed (w + fv) 5.0) (0 : Vec3)).length = 5.0) := by
  refine ⟨foldl_psApplyForce_velocity i p fns F s 0 hF hp hv,
    fun h => foldl_limitSpeed_le F 0 h, ?_⟩
  rintro f rfl hgt
  constructor
  · rw [List.foldl_cons, List.foldl_nil, Vec3.zero_add]
    exact Physics.limitSpeed_of_gt f 5.0 (by norm_num) hgt
  · rw [List.foldl_cons, List.foldl_nil, Vec3.zero_add,
      Physics.length_limitSpeed _ _ (by norm_num),
      min_eq_right (le_of_lt hgt)]

theorem applyForce_clamp_amended_witness :
    (([fun _ _ => some ⟨6, 0, 0⟩] :
        List (Vec3 → ℕ → Option Vec3)).foldl psApplyForce
      ⟨[⟨0, 0, 0⟩], [⟨0, 0, 0⟩], [], []⟩).velocities.get? 0 =
      some (([⟨6, 0, 0⟩] : List Vec3).foldl
        (fun w fv => Physics.limitSpeed (w + fv) 5.0) 0) ∧
    (([⟨6, 0, 0⟩] : List Vec3).foldl
        (fun w fv => Physics.limitSpeed (w + fv) 5.0) (0 : Vec3)) =
      (5.0 / Vec3.length ⟨6, 0, 0⟩) • (⟨6, 0, 0⟩ : Vec3) ∧
    (([⟨6, 0, 0⟩] : List Vec3).foldl
        (fun w fv => Physics.limitSpeed (w + fv) 5.0) (0 : Vec3)).length = 5.0 := by
  have h6 : Vec3.length ⟨6, 0, 0⟩ = 6 := by
    rw [Vec3.length]
    exact sqrt_val (by norm_num) (by norm_num)
  have h := applyForce_clamp_amended ⟨[⟨0, 0, 0⟩], [⟨0, 0, 0⟩], [], []⟩ 0 ⟨0, 0, 0⟩
    [fun _ _ => some ⟨6, 0, 0⟩] [⟨6, 0, 0⟩] rfl rfl
    (List.Forall₂.cons rfl List.Forall₂.nil)
  have hs := h.2.2 ⟨6, 0, 0⟩ rfl (by rw [h6]; norm_num)
  exact ⟨h.1, hs.1, hs.2⟩

theorem length_eval (a b c r : ℝ) (hr : 0 ≤ r) (h : r ^ 2 = a ^ 2 + b ^ 2 + c ^ 2) :
    Vec3.length ⟨a, b, c⟩ = r := by
  rw [Vec3.length]
  exact sqrt_val hr h

/-- C3 (counterexample): forces `(10,0,0)`, `(-10,0,0)`, `(6,0,0)`
delivered by three successive `applyForce` calls to a particle at rest:
their cumulative sum `(6,0,0)` exceeds the max speed, yet the final
velocity is `(1,0,0)` — magnitude `1`, not exactly `5.0`, and not the
scaled normalized cumulative sum — because clamping happens inside each
call, not once at the end. -/
theorem applyForce_clamp_counterexample :
    Vec3.length ((⟨10, 0, 0⟩ : Vec3) + ⟨-10, 0, 0⟩ + ⟨6, 0, 0⟩) > 5.0 ∧
    (([fun _ _ => some ⟨10, 0, 0⟩, fun _ _ => some ⟨-10, 0, 0⟩,
        fun _ _ => some ⟨6, 0, 0⟩] :
        List (Vec3 → ℕ → Option Vec3)).foldl psApplyForce
      ⟨[⟨0, 0, 0⟩], [⟨0, 0, 0⟩], [], []⟩).velocities.get? 0 = some ⟨1, 0, 0⟩ ∧
    Vec3.length ⟨1, 0, 0⟩ ≠ 5.0 ∧
    (⟨1, 0, 0⟩ : Vec3) ≠
      (5.0 / Vec3.length ((⟨10, 0, 0⟩ : Vec3) + ⟨-10, 0, 0⟩ + ⟨6, 0, 0⟩)) •
        ((⟨10, 0, 0⟩ : Vec3) + ⟨-10, 0, 0⟩ + ⟨6, 0, 0⟩) := by
  have hsum : (⟨10, 0, 0⟩ : Vec3) + ⟨-10, 0, 0⟩ + ⟨6, 0, 0⟩ = (⟨6, 0, 0⟩ : Vec3) := by
    ext <;> simp <;> norm_num
  have h6 : Vec3.length ⟨6, 0, 0⟩ = 6 := length_eval 6 0 0 6 (by norm_num) (by norm_num)
  have h10 : Vec3.length ⟨10, 0, 0⟩ = 10 :=
    length_eval 10 0 0 10 (by norm_num) (by norm_num)
  have hm5 : Vec3.length ⟨-5, 0, 0⟩ = 5 :=
    length_eval (-5) 0 0 5 (by norm_num) (by norm_num)
  have h1 : Vec3.length ⟨1, 0, 0⟩ = 1 := length_eval 1 0 0 1 (by norm_num) (by norm_num)
  have lim1 : Physics.limitSpeed ⟨10, 0, 0⟩ 5.0 = ⟨5, 0, 0⟩ := by
    rw [Physics.limitSpeed_of_gt _ _ (by norm_num) (by rw [h10]; norm_num), h10]
    ext <;> simp <;> norm_num
  have lim2 : Physics.limitSpeed ⟨-5, 0, 0⟩ 5.0 = ⟨-5, 0, 0⟩ := by
    rw [Physics.limitSpeed, if_neg]
    rw [hm5]
    norm_num
  have lim3 : Physics.limitSpeed ⟨1, 0, 0⟩ 5.0 = ⟨1, 0, 0⟩ := by
    rw [Physics.limitSpeed, if_neg]
    rw [h1]
    norm_num
  have hstep1 : (⟨0, 0, 0⟩ : Vec3) + ⟨10, 0, 0⟩ = ⟨10, 0, 0⟩ := by
    ext <;> simp
  have hstep2 : (⟨5, 0, 0⟩ : Vec3) + ⟨-10, 0, 0⟩ = ⟨-5, 0, 0⟩ := by
    ext <;> simp <;> norm_num
  have hstep3 : (⟨-5, 0, 0⟩ : Vec3) + ⟨6, 0, 0⟩ = ⟨1, 0, 0⟩ := by
    ext <;> simp <;> norm_num
  refine ⟨by rw [hsum, h6]; norm_num, ?_, by rw [h1]; norm_num, ?_⟩
  · have hrun := foldl_psApplyForce_velocity 0 ⟨0, 0, 0⟩
      [fun _ _ => some ⟨10, 0, 0⟩, fun _ _ => some ⟨-10, 0, 0⟩,
        fun _ _ => some ⟨6, 0, 0⟩]
      [⟨10, 0, 0⟩, ⟨-10, 0, 0⟩, ⟨6, 0, 0⟩]
      ⟨[⟨0, 0, 0⟩], [⟨0, 0, 0⟩], [], []⟩ ⟨0, 0, 0⟩
      (List.Forall₂.cons rfl (List.Forall₂.cons rfl
        (List.Forall₂.cons rfl List.Forall₂.nil))) rfl rfl
    rw [hrun]
    rw [List.foldl_cons, hstep1, lim1, List.foldl_cons, hstep2, lim2,
      List.foldl_cons, hstep3, lim3, List.foldl_nil]
  · rw [hsum, h6]
    intro hcontra
    have hx : (1 : ℝ) = 5.0 / 6 * 6 := congrArg Vec3.x hcontra
    norm_num at hx

/-! ### C4: AtomMode gesture overlays -/

theorem atomForce_full_open_eq (nucleusPosition : Vec3) (orbitRadius : ℝ)
    (hp rnd drift position : Vec3) :
    atomForce nucleusPosition orbitRadius (some hp) Gesture.FULL_OPEN rnd drift position =
      atomForce nucleusPosition orbitRadius (some hp) Gesture.NONE rnd drift position := by
  unfold atomForce
  simp

theorem atomForce_thumb_up_eq (nucleusPosition : Vec3) (orbitRadius : ℝ)
    (hp rnd drift position : Vec3) :
    atomForce nucleusPosition orbitRadius (some hp) Gesture.THUMB_UP rnd drift position =
      atomForce nucleusPosition orbitRadius (some hp) Gesture.NONE rnd drift position +
        Physics.repulsionForce position (Physics.screenToWorld hp.x hp.y 0) 8.0 rnd := by
  unfold atomForce
  simp only [reduceCtorEq, if_false, if_true, reduceIte]
  ext <;> simp <;> ring

/-- C4 (amended): in atom mode with a hand present, it is the THUMB_UP
branch — not FULL_OPEN — that adds the strength-8.0 repulsion from the
hand's world position to the per-particle force; FULL_OPEN matches no
overlay branch and leaves the force at its baseline value. -/
theorem atom_repulsion_amended (nucleusPosition : Vec3) (orbitRadius : ℝ)
    (hp rnd drift position : Vec3) :
    atomForce nucleusPosition orbitRadius (some hp) Gesture.THUMB_UP rnd drift position =
      atomForce nucleusPosition orbitRadius (some hp) Gesture.NONE rnd drift position +
        Physics.repulsionForce position (Physics.screenToWorld hp.x hp.y 0) 8.0 rnd ∧
    atomForce nucleusPosition orbitRadius (some hp) Gesture.FULL_OPEN rnd drift position =
      atomForce nucleusPosition orbitRadius (some hp) Gesture.NONE rnd drift position :=
  ⟨atomForce_thumb_up_eq nucleusPosition orbitRadius hp rnd drift position,
   atomForce_full_open_eq nucleusPosition orbitRadius hp rnd drift position⟩

/-- C4 (counterexample): a concrete configuration (nucleus at the
origin, hand at screen center, particle at `(10,0,0)`) where the
FULL_OPEN force does not contain the claimed strength-8.0 repulsion
from the hand: it equals the NONE-gesture baseline instead. -/
theorem atom_full_open_counterexample :
    atomForce ⟨0, 0, 0⟩ 2 (some ⟨0.5, 0.5, 0⟩) Gesture.FULL_OPEN ⟨0, 0, 0⟩
        ⟨0.5, 0.5, 0.5⟩ ⟨10, 0, 0⟩ ≠
      atomForce ⟨0, 0, 0⟩ 2 (some ⟨0.5, 0.5, 0⟩) Gesture.NONE ⟨0, 0, 0⟩
          ⟨0.5, 0.5, 0.5⟩ ⟨10, 0, 0⟩ +
        Physics.repulsionForce ⟨10, 0, 0⟩
          (Physics.screenToWorld (Vec3.mk 0.5 0.5 0).x (Vec3.mk 0.5 0.5 0).y 0)
          8.0 ⟨0, 0, 0⟩ := by
  have hw : Physics.screenToWorld (Vec3.mk 0.5 0.5 0).x (Vec3.mk 0.5 0.5 0).y 0 =
      (⟨0, 0, 0⟩ : Vec3) := by
    rw [Physics.screenToWorld]
    ext <;> norm_num
  have hdir : (⟨10, 0, 0⟩ : Vec3) - ⟨0, 0, 0⟩ = ⟨10, 0, 0⟩ := by
    ext <;> simp
  have h10 : Vec3.length ⟨10, 0, 0⟩ = 10 :=
    length_eval 10 0 0 10 (by norm_num) (by norm_num)
  have hxne : (Physics.repulsionForce ⟨10, 0, 0⟩ ⟨0, 0, 0⟩ 8.0 ⟨0, 0, 0⟩).x ≠ 0 := by
    unfold Physics.repulsionForce
    simp only [hdir]
    rw [h10, if_neg (by norm_num),
      Vec3.normalize_of_ne_zero _ (by rw [h10]; norm_num), h10]
    simp only [Vec3.smul_def]
    norm_num
  rw [atomForce_full_open_eq, hw]
  intro hcontra
  have hx := congrArg Vec3.x hcontra
  simp only [Vec3.add_def] at hx
  exact hxne (by linarith)

/-! ### C7: attraction / repulsion formulas and antiparallelism -/

theorem sub_neg_swap (p t : Vec3) : p - t = -(t - p) := by
  ext <;> simp <;> ring

theorem antiparallel_scalar (d s : ℝ) (hd : 0 < d) :
    s / (d * d + 0.1) * (1 / d) =
      -((d + 0.1) / (d * d + 0.1)) * (s / (d + 0.1)) * -(1 / d) := by
  have h1 : d + 0.1 ≠ 0 := by positivity
  have h2 : d * d + 0.1 ≠ 0 := by positivity
  field_simp
  ring

theorem length_sub_swap (p t : Vec3) : (p - t).length = (t - p).length := by
  rw [sub_neg_swap, Vec3.length_neg]

/-- C7 (amended): at distance ≥ 0.1, `attractionForce` is the
inverse-square pull toward the target and `repulsionForce` the
inverse-distance push away from it (with the stated magnitudes for
nonnegative strength), and the two are antiparallel; below distance 0.1
attraction is the zero vector and repulsion is the random impulse — so
antiparallelism holds only in the `≥ 0.1` regime. -/
theorem force_helpers_amended (p t : Vec3) (s : ℝ) (rnd : Vec3) :
    (0.1 ≤ (t - p).length →
      Physics.attractionForce p t s =
        (s / ((t - p).length * (t - p).length + 0.1)) • (t - p).normalize ∧
      Physics.repulsionForce p t s rnd =
        (s / ((t - p).length + 0.1)) • (p - t).normalize ∧
      (0 ≤ s →
        (Physics.attractionForce p t s).length =
          s / ((t - p).length * (t - p).length + 0.1) ∧
        (Physics.repulsionForce p t s rnd).length = s / ((t - p).length + 0.1)) ∧
      ∃ c : ℝ, 0 < c ∧
        Physics.attractionForce p t s = (-c) • Physics.repulsionForce p t s rnd) ∧
    ((t - p).length < 0.1 →
      Physics.attractionForce p t s = 0 ∧
      Physics.repulsionForce p t s rnd = (s * 10) • (rnd - ⟨0.5, 0.5, 0.5⟩)) := by
  constructor
  · intro h
    have hd0 : (0 : ℝ) < (t - p).length := lt_of_lt_of_le (by norm_num) h
    have hdne : (t - p).length ≠ 0 := ne_of_gt hd0
    have hdne' : (p - t).length ≠ 0 := by
      rw [length_sub_swap]
      exact hdne
    have hatt : Physics.attractionForce p t s =
        (s / ((t - p).length * (t - p).length + 0.1)) • (t - p).normalize := by
      unfold Physics.attractionForce
      rw [if_neg (not_lt.mpr h)]
    have hrep : Physics.repulsionForce p t s rnd =
        (s / ((t - p).length + 0.1)) • (p - t).normalize := by
      unfold Physics.repulsionForce
      dsimp only
      rw [length_sub_swap, if_neg (not_lt.mpr h)]
    refine ⟨hatt, hrep, ?_, ?_⟩
    · intro hs
      constructor
      · rw [hatt, Vec3.length_smul, Vec3.length_normalize _ hdne, mul_one,
          abs_of_nonneg (by positivity)]
      · rw [hrep, Vec3.length_smul, Vec3.length_normalize _ hdne', mul_one,
          abs_of_nonneg (by positivity)]
    · refine ⟨((t - p).length + 0.1) / ((t - p).length * (t - p).length + 0.1),
        by positivity, ?_⟩
      have hsmul2 : ∀ (a b : ℝ) (v : Vec3), a • b • v = (a * b) • v := by
        intro a b v
        ext <;> simp <;> ring
      have hsneg : ∀ (a : ℝ) (v : Vec3), a • (-v) = (-a) • v := by
        intro a v
        ext <;> simp <;> ring
      have h1 : (t - p).length + 0.1 ≠ 0 := by positivity
      have h2 : (t - p).length * (t - p).length + 0.1 ≠ 0 := by positivity
      rw [hatt, hrep, Vec3.normalize_of_ne_zero _ hdne,
        Vec3.normalize_of_ne_zero _ hdne', length_sub_swap p t, sub_neg_swap p t,
        hsneg, hsmul2, hsmul2, hsmul2]
      congr 1
      exact antiparallel_scalar (t - p).length s hd0
  · intro h
    constructor
    · unfold Physics.attractionForce
      rw [if_pos h]
    · unfold Physics.repulsionForce
      dsimp only
      rw [length_sub_swap, if_pos h]

theorem force_helpers_amended_witness :
    0.1 ≤ ((⟨1, 0, 0⟩ : Vec3) - ⟨0, 0, 0⟩).length ∧
    ∃ c : ℝ, 0 < c ∧
      Physics.attractionForce ⟨0, 0, 0⟩ ⟨1, 0, 0⟩ 1 =
        (-c) • Physics.repulsionForce ⟨0, 0, 0⟩ ⟨1, 0, 0⟩ 1 0 := by
  have hsub : (⟨1, 0, 0⟩ : Vec3) - ⟨0, 0, 0⟩ = ⟨1, 0, 0⟩ := by
    ext <;> simp
  have hlen : ((⟨1, 0, 0⟩ : Vec3) - ⟨0, 0, 0⟩).length = 1 := by
    rw [hsub]
    exact length_eval 1 0 0 1 (by norm_num) (by norm_num)
  have hge : (0.1 : ℝ) ≤ ((⟨1, 0, 0⟩ : Vec3) - ⟨0, 0, 0⟩).length := by
    rw [hlen]
    norm_num
  exact ⟨hge, ((force_helpers_amended ⟨0, 0, 0⟩ ⟨1, 0, 0⟩ 1 0).1 hge).2.2.2⟩

/-- C7 (counterexample): at `p = (0,0,0)`, `t = (0.05,0,0)` — distinct
points at distance `0.05 < 0.1` — attraction is the zero vector while
repulsion is a nonzero random impulse, so the two results are not
antiparallel even though `p ≠ t`. -/
theorem antiparallel_counterexample :
    (⟨0, 0, 0⟩ : Vec3) ≠ ⟨0.05, 0, 0⟩ ∧
    Physics.attractionForce ⟨0, 0, 0⟩ ⟨0.05, 0, 0⟩ 1 = 0 ∧
    Physics.repulsionForce ⟨0, 0, 0⟩ ⟨0.05, 0, 0⟩ 1 ⟨1, 0.5, 0.5⟩ = ⟨5, 0, 0⟩ ∧
    ¬∃ c : ℝ, 0 < c ∧
      Physics.attractionForce ⟨0, 0, 0⟩ ⟨0.05, 0, 0⟩ 1 =
        (-c) • Physics.repulsionForce ⟨0, 0, 0⟩ ⟨0.05, 0, 0⟩ 1 ⟨1, 0.5, 0.5⟩ := by
  have hatt : Physics.attractionForce ⟨0, 0, 0⟩ ⟨0.05, 0, 0⟩ 1 = 0 := by
    unfold Physics.attractionForce
    have hd : (⟨0.05, 0, 0⟩ : Vec3) - ⟨0, 0, 0⟩ = ⟨0.05, 0, 0⟩ := by
      ext <;> simp
    simp only [hd]
    rw [length_eval 0.05 0 0 0.05 (by norm_num) (by norm_num), if_pos (by norm_num)]
  have hrep : Physics.repulsionForce ⟨0, 0, 0⟩ ⟨0.05, 0, 0⟩ 1 ⟨1, 0.5, 0.5⟩ =
      ⟨5, 0, 0⟩ := by
    unfold Physics.repulsionForce
    have hd : (⟨0, 0, 0⟩ : Vec3) - ⟨0.05, 0, 0⟩ = ⟨-0.05, 0, 0⟩ := by
      ext <;> simp <;> norm_num
    simp only [hd]
    rw [length_eval (-0.05) 0 0 0.05 (by norm_num) (by norm_num), if_pos (by norm_num)]
    ext <;> simp <;> norm_num
  refine ⟨?_, hatt, hrep, ?_⟩
  · intro hcontra
    have hx : (0 : ℝ) = 0.05 := congrArg Vec3.x hcontra
    norm_num at hx
  · rintro ⟨c, hc, heq⟩
    rw [hatt, hrep] at heq
    have hx := congrArg Vec3.x heq.symm
    simp only [Vec3.smul_def, Vec3.zero_def] at hx
    have : c = 0 := by linarith
    rw [this] at hc
    exact lt_irrefl 0 hc

/-! ### C10: curl angle range -/

/-- C10: `getFingerCurlAngle` always returns a real number in
`[0, 180]` (the clamped cosine keeps `acos` defined, so no NaN can
arise), and degenerate zero-length joint vectors yield exactly 180. -/
theorem curl_angle_range (lm : List Vec3) (tipIndex : ℕ) :
    0 ≤ getFingerCurlAngle lm tipIndex ∧
    getFingerCurlAngle lm tipIndex ≤ 180 ∧
    ((lmk lm (tipIndex - 3) = lmk lm (tipIndex - 2) ∨
      lmk lm (tipIndex - 1) = lmk lm (tipIndex - 2)) →
      getFingerCurlAngle lm tipIndex = 180) := by
  unfold getFingerCurlAngle
  dsimp only
  refine ⟨?_, ?_, ?_⟩
  · split
    · norm_num
    · exact mul_nonneg (Real.arccos_nonneg _) (by positivity)
  · split
    · norm_num
    · calc Real.arccos _ * (180 / Real.pi) ≤ Real.pi * (180 / Real.pi) :=
          mul_le_mul_of_nonneg_right (Real.arccos_le_pi _) (by positivity)
        _ = 180 := by
          field_simp
  · intro hdeg
    rcases hdeg with hd | hd
    · rw [if_pos (Or.inl (by rw [hd]; simp))]
    · rw [if_pos (Or.inr (by rw [hd]; simp))]

theorem curl_angle_range_witness :
    0 ≤ getFingerCurlAngle zeroFrame 8 ∧
    getFingerCurlAngle zeroFrame 8 ≤ 180 ∧
    getFingerCurlAngle zeroFrame 8 = 180 := by
  have h := curl_angle_range zeroFrame 8
  exact ⟨h.1, h.2.1, h.2.2 (Or.inl rfl)⟩

end QuantLab
